/-
Verification development for the Calimero desktop shell backend
(apps/desktop/src-tauri/src/main.rs).

The file shallowly embeds the decision logic of the backend:
 * `validate_allowed_url` — the proxy allow-list validator,
 * `stop_merod` / `stop_merod_by_pid` — the process-stop operations
   (unix build; the OS process layer is abstracted by an oracle `Os`),
 * `set_ports` — the config.toml port-rewriting block of `start_merod`,
 * `list_merod_nodes` — node discovery under the storage root.

URLs appear in the Rust code only through the `url` crate's parser, so a
URL is embedded as the parser's output: a record of scheme, user-info,
host, port (as returned by `Url::port()`, i.e. with a scheme-default port
stripped), path, query and fragment.  A `url::Url::parse` failure is
embedded as `none`.  Rust's `str::to_lowercase` agrees with Lean's
`lowerStr` on the ASCII hosts involved here.
-/
import Mathlib

namespace CalimeroDesktop

/-- `str::to_lowercase` as applied to hosts by the validator
(main.rs:59, main.rs:73).  Host names coming out of the `url` crate are
ASCII, where Rust's Unicode lowercasing and the per-character
`Char.toLower` agree; this definition reduces structurally (the string
library's own lowercasing recurses on byte positions and does not). -/
def lowerStr (s : String) : String :=
  ⟨s.data.map Char.toLower⟩

/-- Result of `url::Url::parse` on a request or configured-endpoint string.
`port` is the explicit port as reported by `Url::port()` (the crate strips
a port equal to the scheme default, which the code below re-applies). -/
structure UrlRec where
  scheme : String
  username : String
  password : Option String
  host : Option String
  port : Option Nat
  path : String
  query : Option String
  fragment : Option String
deriving DecidableEq, Repr

/-- The distinct error returns of `validate_allowed_url` (main.rs:34-143);
the Rust function returns formatted message strings, which carry no
decision content and are abstracted to constructors. -/
inductive RejectReason where
  | invalidUrl
  | unsupportedScheme
  | credentialsInUrl
  | missingHost
  | notConfiguredEndpoint
  | notAllowed
deriving DecidableEq, Repr

/-- `parsed.port().unwrap_or_else(|| match scheme { "http" => 80, "https" => 443, _ => unreachable!() })`
(main.rs:62-68).  The `_` arm is unreachable after the scheme gate; `0`
stands in for `unreachable!()`. -/
def effPort (u : UrlRec) : Nat :=
  match u.port with
  | some p => p
  | none =>
    match u.scheme with
    | "http" => 80
    | "https" => 443
    | _ => 0

/-- `node_parsed.port().or_else(|| match node_parsed.scheme() { "http" => Some(80), "https" => Some(443), _ => None })`
(main.rs:74-80). -/
def cfgPort (c : UrlRec) : Option Nat :=
  match c.port with
  | some p => some p
  | none =>
    match c.scheme with
    | "http" => some 80
    | "https" => some 443
    | _ => none

/-- The default-fallback branch (main.rs:100-142): admit exactly
`("http", "localhost", 2528)` and `("http", "127.0.0.1", 2528)`; the
diagnostic-suggestion text built in the reject arm is advisory only and
is abstracted into `notAllowed`. -/
def fallbackCheck (scheme hostLower : String) (port : Nat) : Except RejectReason Unit :=
  if scheme = "http" ∧ hostLower = "localhost" ∧ port = 2528 then Except.ok ()
  else if scheme = "http" ∧ hostLower = "127.0.0.1" ∧ port = 2528 then Except.ok ()
  else Except.error RejectReason.notAllowed

/-- The configured-endpoint logic of `validate_allowed_url`
(main.rs:70-97 plus the fallback at 99-142).  The outer `Option` is
whether `configured_node_url` was supplied, the inner one whether it
parsed (`if let Ok(node_parsed) = url::Url::parse(node_url)`).  When a
configured URL is supplied, a failed parse or a failed triple match both
fall through to the `configured_node_url.is_some()` rejection at
main.rs:92-97. -/
def endpointCheck (scheme hostLower : String) (port : Nat)
    (cfg : Option (Option UrlRec)) : Except RejectReason Unit :=
  match cfg with
  | some (some c) =>
    if c.host.map lowerStr = some hostLower ∧ cfgPort c = some port ∧ c.scheme = scheme
    then Except.ok ()
    else Except.error RejectReason.notConfiguredEndpoint
  | some none => Except.error RejectReason.notConfiguredEndpoint
  | none => fallbackCheck scheme hostLower port

/-- `validate_allowed_url` (main.rs:34-143).  The first argument is the
result of parsing the request URL, the second the supplied-and-parsed
state of `configured_node_url`. -/
def validate_allowed_url (parsed : Option UrlRec)
    (cfg : Option (Option UrlRec)) : Except RejectReason Unit :=
  match parsed with
  | none => Except.error RejectReason.invalidUrl
  | some u =>
    if u.scheme ≠ "http" ∧ u.scheme ≠ "https" then
      Except.error RejectReason.unsupportedScheme
    else if u.username ≠ "" ∨ u.password ≠ none then
      Except.error RejectReason.credentialsInUrl
    else
      match u.host with
      | none => Except.error RejectReason.missingHost
      | some host => endpointCheck u.scheme (lowerStr host) (effPort u) cfg

/-- The request's (scheme, lower-cased host, port-with-scheme-default)
triple, when it has a host. -/
def reqTriple (u : UrlRec) : Option (String × String × Nat) :=
  u.host.map (fun h => (u.scheme, lowerStr h, effPort u))

/-- The configured endpoint's (scheme, lower-cased host,
port-with-scheme-default) triple, when host and effective port exist. -/
def cfgTriple (c : UrlRec) : Option (String × String × Nat) :=
  match c.host, cfgPort c with
  | some h, some p => some (c.scheme, lowerStr h, p)
  | _, _ => none

/-- Parse of `http://localhost:2528/`. -/
def uLocalhost2528 : UrlRec :=
  ⟨"http", "", none, some "localhost", some 2528, "/", none, none⟩

/-- Parse of `http://127.0.0.1:2528/`. -/
def u127_2528 : UrlRec :=
  ⟨"http", "", none, some "127.0.0.1", some 2528, "/", none, none⟩

/-- Parse of `http://subdomain.localhost:2528/`. -/
def uSubdomainLocalhost : UrlRec :=
  ⟨"http", "", none, some "subdomain.localhost", some 2528, "/", none, none⟩

/-- Parse of `http://evil.com:2528/`. -/
def uEvil2528 : UrlRec :=
  ⟨"http", "", none, some "evil.com", some 2528, "/", none, none⟩

/-- Parse of `https://example.com/` (port 443 implicit). -/
def uHttpsExample : UrlRec :=
  ⟨"https", "", none, some "example.com", none, "/", none, none⟩

/-- Parse of `https://localhost:2528/`. -/
def uHttpsLocalhost2528 : UrlRec :=
  ⟨"https", "", none, some "localhost", some 2528, "/", none, none⟩

/-- Parse of `http://localhost:8080/` (used as a configured endpoint). -/
def uLocalhost8080 : UrlRec :=
  ⟨"http", "", none, some "localhost", some 8080, "/", none, none⟩

/-- Parse of `http://user@localhost:2528/`. -/
def uUserinfo : UrlRec :=
  ⟨"http", "user", none, some "localhost", some 2528, "/", none, none⟩

/-- Parse of `http://localhost:2528/api/test?q=1#frag`. -/
def uLocalhostPath : UrlRec :=
  ⟨"http", "", none, some "localhost", some 2528, "/api/test", some "q=1", some "frag"⟩

example : validate_allowed_url (some uLocalhost2528) none = Except.ok () := rfl
example : validate_allowed_url (some u127_2528) none = Except.ok () := rfl
example : validate_allowed_url (some uEvil2528) none = Except.error RejectReason.notAllowed := rfl
example : validate_allowed_url (some uHttpsLocalhost2528) none = Except.error RejectReason.notAllowed := rfl
example : validate_allowed_url (some uLocalhost2528) (some (some uLocalhost8080)) =
    Except.error RejectReason.notConfiguredEndpoint := rfl
example : validate_allowed_url (some uLocalhost8080) (some (some uLocalhost8080)) = Except.ok () := rfl
example : validate_allowed_url (some uLocalhost2528) (some none) =
    Except.error RejectReason.notConfiguredEndpoint := rfl
example : validate_allowed_url (some uUserinfo) none =
    Except.error RejectReason.credentialsInUrl := rfl
example : validate_allowed_url (some uHttpsExample) (some (some uHttpsExample)) = Except.ok () := rfl

lemma scheme_gate_false (u : UrlRec) (hs : u.scheme = "http" ∨ u.scheme = "https") :
    ¬(u.scheme ≠ "http" ∧ u.scheme ≠ "https") := by
  rcases hs with h | h <;> simp [h]

lemma userinfo_gate_false (u : UrlRec) (hu : u.username = "") (hp : u.password = none) :
    ¬(u.username ≠ "" ∨ u.password ≠ none) := by
  simp [hu, hp]

lemma validate_eq_endpointCheck (u : UrlRec) (cfg : Option (Option UrlRec))
    (hs : u.scheme = "http" ∨ u.scheme = "https") (hu : u.username = "")
    (hp : u.password = none) (host : String) (hh : u.host = some host) :
    validate_allowed_url (some u) cfg = endpointCheck u.scheme (lowerStr host) (effPort u) cfg := by
  simp only [validate_allowed_url]
  rw [if_neg (scheme_gate_false u hs), if_neg (userinfo_gate_false u hu hp), hh]

lemma validate_missingHost (u : UrlRec) (cfg : Option (Option UrlRec))
    (hs : u.scheme = "http" ∨ u.scheme = "https") (hu : u.username = "")
    (hp : u.password = none) (hh : u.host = none) :
    validate_allowed_url (some u) cfg = Except.error RejectReason.missingHost := by
  simp only [validate_allowed_url]
  rw [if_neg (scheme_gate_false u hs), if_neg (userinfo_gate_false u hu hp), hh]

lemma endpointCheck_ok_iff (s hl : String) (p : Nat) (c : UrlRec) :
    endpointCheck s hl p (some (some c)) = Except.ok () ↔
      (c.host.map lowerStr = some hl ∧ cfgPort c = some p ∧ c.scheme = s) := by
  simp only [endpointCheck]
  split_ifs with h
  · exact iff_of_true rfl h
  · exact iff_of_false (by simp) h

lemma endpointCond_iff_cfgTriple (s hl : String) (p : Nat) (c : UrlRec) :
    (c.host.map lowerStr = some hl ∧ cfgPort c = some p ∧ c.scheme = s) ↔
      cfgTriple c = some (s, hl, p) := by
  unfold cfgTriple
  cases hc : c.host with
  | none => simp [hc]
  | some h =>
    cases hq : cfgPort c with
    | none => simp [hc, hq]
    | some q =>
      simp only [hc, hq, Option.map_some', Option.some_inj, Prod.mk.injEq]
      tauto

lemma reqTriple_some (u : UrlRec) (host : String) (hh : u.host = some host) :
    reqTriple u = some (u.scheme, lowerStr host, effPort u) := by
  simp [reqTriple, hh]

/-- With a supplied-and-parsed configured endpoint, the validator admits
exactly when the two triples exist and coincide. -/
lemma validate_cfg_ok_iff (u c : UrlRec) (hs : u.scheme = "http" ∨ u.scheme = "https")
    (hu : u.username = "") (hp : u.password = none) :
    validate_allowed_url (some u) (some (some c)) = Except.ok () ↔
      (∃ t, reqTriple u = some t ∧ cfgTriple c = some t) := by
  cases hh : u.host with
  | none =>
    rw [validate_missingHost u _ hs hu hp hh]
    simp [reqTriple, hh]
  | some host =>
    rw [validate_eq_endpointCheck u _ hs hu hp host hh, endpointCheck_ok_iff,
      endpointCond_iff_cfgTriple, reqTriple_some u host hh]
    constructor
    · intro h
      exact ⟨(u.scheme, lowerStr host, effPort u), rfl, h⟩
    · rintro ⟨t, ht, hc⟩
      cases ht
      exact hc

/-- With no configured endpoint, the validator admits exactly the two
fallback triples. -/
lemma validate_fallback_ok_iff (u : UrlRec) (hs : u.scheme = "http" ∨ u.scheme = "https")
    (hu : u.username = "") (hp : u.password = none) :
    validate_allowed_url (some u) none = Except.ok () ↔
      (reqTriple u = some ("http", "localhost", 2528) ∨
        reqTriple u = some ("http", "127.0.0.1", 2528)) := by
  cases hh : u.host with
  | none =>
    rw [validate_missingHost u _ hs hu hp hh]
    simp [reqTriple, hh]
  | some host =>
    rw [validate_eq_endpointCheck u _ hs hu hp host hh, reqTriple_some u host hh]
    simp only [endpointCheck, fallbackCheck]
    split_ifs with h1 h2
    · simp only [Option.some_inj, Prod.mk.injEq]
      tauto
    · simp only [Option.some_inj, Prod.mk.injEq]
      tauto
    · constructor
      · intro h
        exact absurd h (by simp)
      · intro h
        rcases h with h | h <;> rw [Option.some_inj, Prod.mk.injEq, Prod.mk.injEq] at h
        · exact absurd ⟨h.1, h.2.1, h.2.2⟩ h1
        · exact absurd ⟨h.1, h.2.1, h.2.2⟩ h2

/-- Any request carrying user-info is rejected, whatever the endpoint
configuration. -/
lemma validate_userinfo_reject (u : UrlRec) (cfg : Option (Option UrlRec))
    (h : u.username ≠ "" ∨ u.password ≠ none) :
    validate_allowed_url (some u) cfg ≠ Except.ok () := by
  intro hok
  simp only [validate_allowed_url] at hok
  by_cases h1 : u.scheme ≠ "http" ∧ u.scheme ≠ "https"
  · rw [if_pos h1] at hok
    exact absurd hok (by simp)
  · rw [if_neg h1, if_pos h] at hok
    exact absurd hok (by simp)

/-- Inversion: an admitted request passed every gate and reached
`endpointCheck` with its lowered host and effective port. -/
lemma validate_ok_inv (u : UrlRec) (cfg : Option (Option UrlRec))
    (hok : validate_allowed_url (some u) cfg = Except.ok ()) :
    (u.scheme = "http" ∨ u.scheme = "https") ∧ u.username = "" ∧ u.password = none ∧
      ∃ host, u.host = some host ∧
        endpointCheck u.scheme (lowerStr host) (effPort u) cfg = Except.ok () := by
  simp only [validate_allowed_url] at hok
  by_cases h1 : u.scheme ≠ "http" ∧ u.scheme ≠ "https"
  · rw [if_pos h1] at hok
    exact absurd hok (by simp)
  · rw [if_neg h1] at hok
    by_cases h2 : u.username ≠ "" ∨ u.password ≠ none
    · rw [if_pos h2] at hok
      exact absurd hok (by simp)
    · rw [if_neg h2] at hok
      push_neg at h2
      have hs : u.scheme = "http" ∨ u.scheme = "https" := by
        rcases not_and_or.mp h1 with h | h
        · exact Or.inl (not_not.mp h)
        · exact Or.inr (not_not.mp h)
      cases hh : u.host with
      | none =>
        rw [hh] at hok
        exact absurd hok (by simp)
      | some host =>
        rw [hh] at hok
        exact ⟨hs, h2.1, h2.2, host, rfl, hok⟩

/-- With a supplied-and-parsed configured endpoint whose triple differs
from the request's, the validator rejects. -/
lemma validate_cfg_mismatch_reject (u c : UrlRec) (hne : cfgTriple c ≠ reqTriple u) :
    validate_allowed_url (some u) (some (some c)) ≠ Except.ok () := by
  intro hok
  obtain ⟨_, _, _, host, hh, hend⟩ := validate_ok_inv u _ hok
  rw [endpointCheck_ok_iff, endpointCond_iff_cfgTriple] at hend
  rw [reqTriple_some u host hh] at hne
  exact hne hend

/-- With no configured endpoint, an https request never reaches an
admitting arm of the fallback. -/
lemma validate_https_reject_none (u : UrlRec) (hs : u.scheme = "https") :
    validate_allowed_url (some u) none ≠ Except.ok () := by
  intro hok
  obtain ⟨_, _, _, host, _, hend⟩ := validate_ok_inv u none hok
  simp only [endpointCheck, fallbackCheck, hs] at hend
  rw [if_neg (fun hcond => absurd hcond.1 (by decide)),
    if_neg (fun hcond => absurd hcond.1 (by decide))] at hend
  exact absurd hend (by simp)

/-- The validator's decision is a function of scheme, lower-cased host,
effective port and the configured endpoint: path, query and fragment are
never read. -/
lemma validate_congr (cfg : Option (Option UrlRec)) (u1 u2 : UrlRec)
    (hu1 : u1.username = "") (hu2 : u2.username = "")
    (hp1 : u1.password = none) (hp2 : u2.password = none)
    (hsch : u1.scheme = u2.scheme)
    (hhost : u1.host.map lowerStr = u2.host.map lowerStr)
    (hport : effPort u1 = effPort u2) :
    validate_allowed_url (some u1) cfg = validate_allowed_url (some u2) cfg := by
  simp only [validate_allowed_url]
  rw [hsch, hport, hu1, hu2, hp1, hp2]
  cases h1 : u1.host with
  | none =>
    cases h2 : u2.host with
    | none => rfl
    | some b =>
      rw [h1, h2] at hhost
      exact absurd hhost (by simp)
  | some a =>
    cases h2 : u2.host with
    | none =>
      rw [h1, h2] at hhost
      exact absurd hhost (by simp)
    | some b =>
      rw [h1, h2] at hhost
      simp only [Option.map_some', Option.some_inj] at hhost
      simp only [hhost]

/-- C1: with a configured endpoint string that parses, a request (that
parses, has scheme http or https, and carries no user-info) is admitted
iff its (scheme, lower-cased host, port-with-scheme-default) triple
equals the configured endpoint's triple exactly; in particular
`http://localhost:2528` and `http://127.0.0.1:2528` are rejected whenever
the configured endpoint's triple is different. -/
theorem validate_configured_endpoint_c1 :
    (∀ u c : UrlRec, (u.scheme = "http" ∨ u.scheme = "https") → u.username = "" →
        u.password = none →
        (validate_allowed_url (some u) (some (some c)) = Except.ok () ↔
          ∃ t, reqTriple u = some t ∧ cfgTriple c = some t))
    ∧ (∀ c : UrlRec, cfgTriple c ≠ some ("http", "localhost", 2528) →
        validate_allowed_url (some uLocalhost2528) (some (some c)) ≠ Except.ok ())
    ∧ (∀ c : UrlRec, cfgTriple c ≠ some ("http", "127.0.0.1", 2528) →
        validate_allowed_url (some u127_2528) (some (some c)) ≠ Except.ok ()) := by
  refine ⟨fun u c hs hu hp => validate_cfg_ok_iff u c hs hu hp,
    fun c hne => validate_cfg_mismatch_reject uLocalhost2528 c ?_,
    fun c hne => validate_cfg_mismatch_reject u127_2528 c ?_⟩
  · rw [show reqTriple uLocalhost2528 = some ("http", "localhost", 2528) from rfl]
    exact hne
  · rw [show reqTriple u127_2528 = some ("http", "127.0.0.1", 2528) from rfl]
    exact hne

theorem validate_configured_endpoint_c1_witness :
    validate_allowed_url (some uLocalhost2528) (some (some uLocalhost8080)) ≠ Except.ok () :=
  validate_configured_endpoint_c1.2.1 uLocalhost8080 (by decide)

/-- C2: with no configured endpoint, a request (that parses, has scheme
http or https, and carries no user-info) is admitted iff its triple is
exactly `(http, "localhost", 2528)` or `(http, "127.0.0.1", 2528)`.  The
spoofing shapes are rejected: `http://localhost:2528.evil.com` already
fails URL parsing (non-numeric port), `http://subdomain.localhost:2528`
and `http://evil.com:2528` fail the exact host match. -/
theorem validate_default_fallback_c2 :
    (∀ u : UrlRec, (u.scheme = "http" ∨ u.scheme = "https") → u.username = "" →
        u.password = none →
        (validate_allowed_url (some u) none = Except.ok () ↔
          (reqTriple u = some ("http", "localhost", 2528) ∨
            reqTriple u = some ("http", "127.0.0.1", 2528))))
    ∧ validate_allowed_url none none = Except.error RejectReason.invalidUrl
    ∧ validate_allowed_url (some uSubdomainLocalhost) none = Except.error RejectReason.notAllowed
    ∧ validate_allowed_url (some uEvil2528) none = Except.error RejectReason.notAllowed :=
  ⟨fun u hs hu hp => validate_fallback_ok_iff u hs hu hp, rfl, rfl, rfl⟩

theorem validate_default_fallback_c2_witness :
    validate_allowed_url (some uLocalhost2528) none = Except.ok () :=
  (validate_default_fallback_c2.1 uLocalhost2528 (Or.inl rfl) rfl rfl).mpr (Or.inl rfl)

/-- C3 counterexample: the claim says an https request is rejected
regardless of the configured endpoint, but a configured https endpoint
whose triple matches the request is admitted (main.rs:83-87 compares the
schemes for equality and returns `Ok`). -/
theorem validate_https_admitted_c3_cex :
    validate_allowed_url (some uHttpsExample) (some (some uHttpsExample)) = Except.ok () := rfl

/-- C3 amended: an https request is always rejected when no endpoint is
configured, and also rejected under any configured endpoint whose triple
differs from the request's; only a configured endpoint with the identical
(https, host, port) triple admits it. -/
theorem validate_https_rejected_c3_amended :
    ∀ u : UrlRec, u.scheme = "https" →
      (validate_allowed_url (some u) none ≠ Except.ok ()) ∧
      (∀ c : UrlRec, cfgTriple c ≠ reqTriple u →
        validate_allowed_url (some u) (some (some c)) ≠ Except.ok ()) :=
  fun u hs => ⟨validate_https_reject_none u hs,
    fun c hne => validate_cfg_mismatch_reject u c hne⟩

theorem validate_https_rejected_c3_witness :
    validate_allowed_url (some uHttpsLocalhost2528) none ≠ Except.ok () :=
  (validate_https_rejected_c3_amended uHttpsLocalhost2528 rfl).1

/-- C4 counterexample: the claim says an unparseable configured endpoint
falls through to the default fallback, admitting `http://localhost:2528`;
the code instead rejects it, because main.rs:92 tests
`configured_node_url.is_some()` on the raw option, not on parse
success. -/
theorem validate_unparseable_cfg_c4_cex :
    validate_allowed_url (some uLocalhost2528) (some none) =
      Except.error RejectReason.notConfiguredEndpoint := rfl

/-- C4 amended: when the supplied configured endpoint string fails to
parse, the default fallback is not used and no request whatsoever is
admitted (requests passing the parse/scheme/user-info/host gates are
rejected with `NotConfiguredEndpoint`). -/
theorem validate_unparseable_cfg_c4_amended :
    ∀ parsed : Option UrlRec, validate_allowed_url parsed (some none) ≠ Except.ok () := by
  intro parsed hok
  cases parsed with
  | none => exact absurd hok (by simp [validate_allowed_url])
  | some u =>
    obtain ⟨_, _, _, host, _, hend⟩ := validate_ok_inv u _ hok
    exact absurd hend (by simp [endpointCheck])

/-- C5: a request carrying a non-empty user-info component (non-empty
username and/or any password) is rejected regardless of host, port and
endpoint configuration — even a configured endpoint whose triple matches
the request's. -/
theorem validate_userinfo_rejected_c5 :
    ∀ (u : UrlRec) (cfg : Option (Option UrlRec)),
      (u.username ≠ "" ∨ u.password ≠ none) →
      validate_allowed_url (some u) cfg ≠ Except.ok () :=
  fun u cfg h => validate_userinfo_reject u cfg h

theorem validate_userinfo_rejected_c5_witness :
    validate_allowed_url (some uUserinfo) (some (some uLocalhost2528)) ≠ Except.ok () :=
  validate_userinfo_rejected_c5 uUserinfo (some (some uLocalhost2528)) (Or.inl (by decide))

/-- C9: for a fixed configured-endpoint argument, two parsed requests
with no user-info that agree on scheme, case-insensitive host and
effective port get the same decision — path, query and fragment never
influence admission. -/
theorem validate_extensional_c9 :
    ∀ (cfg : Option (Option UrlRec)) (u1 u2 : UrlRec),
      u1.username = "" → u2.username = "" →
      u1.password = none → u2.password = none →
      u1.scheme = u2.scheme →
      u1.host.map lowerStr = u2.host.map lowerStr →
      effPort u1 = effPort u2 →
      validate_allowed_url (some u1) cfg = validate_allowed_url (some u2) cfg :=
  fun cfg u1 u2 hu1 hu2 hp1 hp2 hsch hhost hport =>
    validate_congr cfg u1 u2 hu1 hu2 hp1 hp2 hsch hhost hport

theorem validate_extensional_c9_witness :
    validate_allowed_url (some uLocalhost2528) none =
      validate_allowed_url (some uLocalhostPath) none :=
  validate_extensional_c9 none uLocalhost2528 uLocalhostPath rfl rfl rfl rfl rfl rfl rfl

/-! ### Process stop operations (main.rs:689-886, unix build)

`stop_merod` and `stop_merod_by_pid_command` run the same kill sequence:
`ps -p pid`; if alive, `kill -TERM`, a 2 s sleep, `ps -p pid` again, and
if still alive `kill -9`, whose failure is an error unless its stderr
contains "No such process".  The OS side is abstracted by an oracle `Os`
giving the observable outcome of each probe; the Tauri managed state
`Arc<Mutex<Option<MerodProcess>>>` is the explicit `slot` argument, and
each operation returns (result, new slot contents). -/

/-- `MerodProcess` (main.rs:400-404). -/
structure MerodProcess where
  pid : Nat
  port : Nat
deriving DecidableEq, Repr

/-- Outcomes of the OS probes used by the kill sequence. -/
structure Os where
  /-- `ps -p pid` ran and exited successfully (main.rs:705-714). -/
  processExists : Nat → Bool
  /-- the re-check `ps -p pid` after `kill -TERM` and the 2 s sleep still
  succeeds (main.rs:730-739). -/
  stillRunningAfterTerm : Nat → Bool
  /-- `kill -9 pid` ran, exited unsuccessfully, and its stderr does not
  contain "No such process" (main.rs:743-756) — the only early-error
  path of the sequence. -/
  kill9Fails : Nat → Bool

/-- The two distinct error returns of the stop commands; the Rust
functions return message strings. -/
inductive StopError where
  | notRunning
  | killFailed
deriving DecidableEq, Repr

/-- Whether the shared kill sequence (main.rs:700-759 = main.rs:793-852)
hits its early `return Err(format!("Failed to stop merod process..."))`. -/
def killDanceFails (os : Os) (pid : Nat) : Bool :=
  if os.processExists pid then
    if os.stillRunningAfterTerm pid then os.kill9Fails pid else false
  else false

/-- `stop_merod` (main.rs:689-789): error `NotRunning` when the slot is
empty; otherwise run the kill sequence on the slot's pid and clear the
slot unconditionally before returning success. -/
def stop_merod (os : Os) (slot : Option MerodProcess) :
    Except StopError Unit × Option MerodProcess :=
  match slot with
  | none => (Except.error StopError.notRunning, none)
  | some proc =>
    if killDanceFails os proc.pid then (Except.error StopError.killFailed, some proc)
    else (Except.ok (), none)

/-- `stop_merod_by_pid_command` (main.rs:792-886): run the kill sequence
on the given pid, then clear the slot only if it currently holds exactly
that pid. -/
def stop_merod_by_pid (os : Os) (pid : Nat) (slot : Option MerodProcess) :
    Except StopError Unit × Option MerodProcess :=
  if killDanceFails os pid then (Except.error StopError.killFailed, slot)
  else
    (Except.ok (),
      match slot with
      | some proc => if proc.pid = pid then none else some proc
      | none => none)

/-- The pid currently held by the managed slot. -/
def slotPid : Option MerodProcess → Option Nat
  | none => none
  | some proc => some proc.pid

/-- An OS in which the probed process is already gone. -/
def osQuiet : Os := ⟨fun _ => false, fun _ => false, fun _ => false⟩

/-- An OS in which the probed process exists, survives SIGTERM, and
`kill -9` fails with an error other than "No such process" (e.g.
"Operation not permitted" on a pid owned by another user). -/
def osStubborn : Os := ⟨fun _ => true, fun _ => true, fun _ => true⟩

/-- A sample managed process. -/
def procSample : MerodProcess := ⟨4242, 2528⟩

example : stop_merod osQuiet (some procSample) = (Except.ok (), none) := rfl
example : stop_merod osQuiet none = (Except.error StopError.notRunning, none) := rfl
example : stop_merod_by_pid osQuiet 4242 (some procSample) = (Except.ok (), none) := rfl
example : stop_merod_by_pid osQuiet 1 (some procSample) = (Except.ok (), some procSample) := rfl
example : stop_merod_by_pid osStubborn 4242 (some procSample) =
    (Except.error StopError.killFailed, some procSample) := rfl

/-- C6: the ambient stop on an empty slot returns `NotRunning` with the
state unchanged (the code returns before issuing any OS command); a
successful stop leaves the slot empty unconditionally; hence if a stop
succeeds, an immediately following stop yields `NotRunning` and again
leaves the (empty) state unchanged. -/
theorem stop_merod_idempotent_c6 :
    (∀ os : Os, stop_merod os none = (Except.error StopError.notRunning, none))
    ∧ (∀ (os : Os) (slot : Option MerodProcess),
        (stop_merod os slot).1 = Except.ok () → (stop_merod os slot).2 = none)
    ∧ (∀ (os1 os2 : Os) (slot : Option MerodProcess),
        (stop_merod os1 slot).1 = Except.ok () →
          stop_merod os2 (stop_merod os1 slot).2 =
            (Except.error StopError.notRunning, none)) := by
  refine ⟨fun os => rfl, ?_, ?_⟩
  · intro os slot hok
    cases slot with
    | none => rfl
    | some proc =>
      simp only [stop_merod] at hok ⊢
      split_ifs with h
      · rw [if_pos h] at hok
        exact absurd hok (by simp)
      · rfl
  · intro os1 os2 slot hok
    cases slot with
    | none =>
      simp only [stop_merod] at hok
      exact absurd hok (by simp)
    | some proc =>
      simp only [stop_merod] at hok ⊢
      split_ifs with h
      · rw [if_pos h] at hok
        exact absurd hok (by simp)
      · rfl

theorem stop_merod_idempotent_c6_witness :
    (stop_merod osQuiet (some procSample)).1 = Except.ok ()
    ∧ stop_merod osQuiet (stop_merod osQuiet (some procSample)).2 =
        (Except.error StopError.notRunning, none) :=
  ⟨rfl, stop_merod_idempotent_c6.2.2 osQuiet osQuiet (some procSample) rfl⟩

/-- C10 counterexample: the claim says the by-pid stop returns success
whether or not a process with the pid exists, but when the process
exists, survives SIGTERM, and `kill -9` fails with a stderr other than
"No such process" (e.g. "Operation not permitted"), the command returns
an error (main.rs:845-847). -/
theorem stop_by_pid_kill_failure_c10_cex :
    osStubborn.processExists 4242 = true
    ∧ stop_merod_by_pid osStubborn 4242 (some procSample) =
        (Except.error StopError.killFailed, some procSample) := ⟨rfl, rfl⟩

/-- C10 amended: the by-pid stop returns success whether or not a process
with the given pid exists, except when a force-kill is attempted and
fails for a reason other than the process being gone; on success it
clears the managed slot exactly when the slot currently holds that pid;
whenever the slot is empty or holds a different pid — and also whenever
the call fails — the slot is left unchanged. -/
theorem stop_by_pid_frame_c10_amended :
    (∀ (os : Os) (pid : Nat) (slot : Option MerodProcess),
        killDanceFails os pid = false →
          (stop_merod_by_pid os pid slot).1 = Except.ok ()
          ∧ (slotPid slot = some pid → (stop_merod_by_pid os pid slot).2 = none)
          ∧ (slotPid slot ≠ some pid → (stop_merod_by_pid os pid slot).2 = slot))
    ∧ (∀ (os : Os) (pid : Nat),
        os.processExists pid = false → killDanceFails os pid = false)
    ∧ (∀ (os : Os) (pid : Nat) (slot : Option MerodProcess),
        (stop_merod_by_pid os pid slot).1 ≠ Except.ok () →
          (stop_merod_by_pid os pid slot).2 = slot)
    ∧ (∀ (os : Os) (pid : Nat) (slot : Option MerodProcess),
        slotPid slot ≠ some pid → (stop_merod_by_pid os pid slot).2 = slot) := by
  refine ⟨?_, ?_, ?_, ?_⟩
  · intro os pid slot hfail
    simp only [stop_merod_by_pid, hfail, Bool.false_eq_true, if_false]
    refine ⟨trivial, ?_, ?_⟩
    · intro hpid
      cases slot with
      | none => simp [slotPid] at hpid
      | some proc =>
        have heq : proc.pid = pid := by simpa [slotPid] using hpid
        simp [heq]
    · intro hpid
      cases slot with
      | none => rfl
      | some proc =>
        have hne : proc.pid ≠ pid := fun h => hpid (by simp [slotPid, h])
        simp [hne]
  · intro os pid hex
    simp [killDanceFails, hex]
  · intro os pid slot hne
    simp only [stop_merod_by_pid] at hne ⊢
    split_ifs at hne ⊢ with h
    · rfl
    · exact absurd rfl hne
  · intro os pid slot hpid
    simp only [stop_merod_by_pid]
    split_ifs with h
    · rfl
    · cases slot with
      | none => rfl
      | some proc =>
        have hne : proc.pid ≠ pid := fun hp => hpid (by simp [slotPid, hp])
        simp [hne]

theorem stop_by_pid_frame_c10_witness :
    (stop_merod_by_pid osQuiet 4242 (some procSample)).1 = Except.ok ()
    ∧ (stop_merod_by_pid osQuiet 4242 (some procSample)).2 = none :=
  ⟨(stop_by_pid_frame_c10_amended.1 osQuiet 4242 (some procSample) rfl).1,
    (stop_by_pid_frame_c10_amended.1 osQuiet 4242 (some procSample) rfl).2.1 rfl⟩

/-! ### Config port rewriting (main.rs:509-590, inside `start_merod`)

`toml::Value` is embedded as `Toml`; a table is an association list of
unique keys (datetime and float scalars, unused by the patch logic, are
omitted).  `Regex::replace` with pattern `/tcp/\d+` (resp. `/udp/\d+`)
replaces the leftmost occurrence of the marker followed by a maximal
nonempty digit run. -/

inductive Toml where
  | str (s : String)
  | int (n : Int)
  | bool (b : Bool)
  | arr (xs : List Toml)
  | table (kvs : List (String × Toml))

/-- Table lookup: `Value::get(key)` on a table (first matching key). -/
def lookupKvs : List (String × Toml) → String → Option Toml
  | [], _ => none
  | (k1, v) :: rest, k => if k1 = k then some v else lookupKvs rest k

/-- In-place mutation of the value at a key, as done through
`get_mut(key)` followed by assignment. -/
def modifyKvs : List (String × Toml) → String → (Toml → Toml) → List (String × Toml)
  | [], _, _ => []
  | (k1, v) :: rest, k, f =>
    (if k1 = k then (k1, f v) else (k1, v)) :: modifyKvs rest k f

def hasKey : List (String × Toml) → String → Bool
  | [], _ => false
  | (k1, _) :: rest, k => k1 = k || hasKey rest k

def replaceKvs : List (String × Toml) → String → Toml → List (String × Toml)
  | [], _, _ => []
  | (k1, w) :: rest, k, v =>
    (if k1 = k then (k, v) else (k1, w)) :: replaceKvs rest k v

/-- `Table::insert(key, value)`: replace the value when the key exists,
append the pair otherwise. -/
def insertKvs (kvs : List (String × Toml)) (k : String) (v : Toml) :
    List (String × Toml) :=
  if hasKey kvs k then replaceKvs kvs k v else kvs ++ [(k, v)]

/-- `config.get("key")`; `None` on non-tables. -/
def tomlGet? : Toml → String → Option Toml
  | Toml.table kvs, k => lookupKvs kvs k
  | _, _ => none

/-- `if let Some(v) = config.get_mut("key") { mutate v }`. -/
def tomlModify : Toml → String → (Toml → Toml) → Toml
  | Toml.table kvs, k, f => Toml.table (modifyKvs kvs k f)
  | t, _, _ => t

/-- `str::contains(pat)` for a substring pattern. -/
def hasSub (p : List Char) : List Char → Bool
  | [] => p.isEmpty
  | c :: t => p.isPrefixOf (c :: t) || hasSub p t

def strContains (s pat : String) : Bool :=
  hasSub pat.data s.data

/-- `Regex::new(r"<marker>\d+").replace(addr, format!("<marker>{port}"))`:
replace, at the leftmost position where the marker is followed by at
least one digit, the marker and the maximal digit run after it. -/
def replaceFromMarker (marker portDigits : List Char) : List Char → List Char
  | [] => []
  | c :: t =>
    if marker.isPrefixOf (c :: t) then
      let rest := (c :: t).drop marker.length
      if (rest.takeWhile Char.isDigit).isEmpty then
        c :: replaceFromMarker marker portDigits t
      else marker ++ portDigits ++ rest.dropWhile Char.isDigit
    else c :: replaceFromMarker marker portDigits t

def replacePortIn (marker : String) (port : Nat) (s : String) : String :=
  ⟨replaceFromMarker marker.data (toString port).data s.data⟩

example : replacePortIn "/tcp/" 9000 "/ip4/127.0.0.1/tcp/2528" = "/ip4/127.0.0.1/tcp/9000" := rfl
example : replacePortIn "/udp/" 9001 "/ip4/0.0.0.0/udp/2428/quic-v1" = "/ip4/0.0.0.0/udp/9001/quic-v1" := rfl
example : replacePortIn "/tcp/" 9000 "/ip4/127.0.0.1/tcp/" = "/ip4/127.0.0.1/tcp/" := rfl

/-- One `server.listen` entry (main.rs:531-548): rewrite the tcp port of
`/ip4/127.0.0.1/tcp/...` and `/ip6/::1/tcp/...` string entries. -/
def updateServerEntry (serverPort : Nat) (e : Toml) : Toml :=
  match e with
  | Toml.str addr =>
    if strContains addr "/ip4/127.0.0.1/tcp/" then
      Toml.str (replacePortIn "/tcp/" serverPort addr)
    else if strContains addr "/ip6/::1/tcp/" then
      Toml.str (replacePortIn "/tcp/" serverPort addr)
    else e
  | _ => e

/-- One `swarm.listen` entry (main.rs:558-576): rewrite the tcp port when
the entry mentions `/tcp/` and not `/udp/`, else the udp port when it
mentions `/udp/`. -/
def updateSwarmEntry (swarmPort : Nat) (e : Toml) : Toml :=
  match e with
  | Toml.str addr =>
    if strContains addr "/tcp/" && !strContains addr "/udp/" then
      Toml.str (replacePortIn "/tcp/" swarmPort addr)
    else if strContains addr "/udp/" then
      Toml.str (replacePortIn "/udp/" swarmPort addr)
    else e
  | _ => e

/-- `if let Some(listen_array) = listen.as_array_mut() { for ... }`. -/
def updateListen (upd : Toml → Toml) (listen : Toml) : Toml :=
  match listen with
  | Toml.arr xs => Toml.arr (xs.map upd)
  | v => v

/-- `server_table.insert("auth_mode", "embedded")` under
`if let Some(server_table) = server.as_table_mut()` (main.rs:525-527). -/
def authModeSet : Toml → Toml
  | Toml.table kvs => Toml.table (insertKvs kvs "auth_mode" (Toml.str "embedded"))
  | v => v

/-- The `server` block of the patch (main.rs:523-552): set
`auth_mode = "embedded"` when `server` is a table, then rewrite the
listen entries. -/
def updateServer (serverPort : Nat) (server : Toml) : Toml :=
  tomlModify (authModeSet server) "listen" (updateListen (updateServerEntry serverPort))

/-- The `swarm` block of the patch (main.rs:555-580). -/
def updateSwarm (swarmPort : Nat) (swarm : Toml) : Toml :=
  tomlModify swarm "listen" (updateListen (updateSwarmEntry swarmPort))

/-- The whole config mutation of `start_merod` (main.rs:509-590) at the
document level; text parsing and `toml::to_string_pretty` serialization
are the toml crate's value-faithful round trip. -/
def set_ports (config : Toml) (serverPort swarmPort : Nat) : Toml :=
  tomlModify (tomlModify config "server" (updateServer serverPort))
    "swarm" (updateSwarm swarmPort)

/-- A field of the `server` table of a document. -/
def serverField (config : Toml) (k : String) : Option Toml :=
  (tomlGet? config "server").bind (fun s => tomlGet? s k)

/-- A field of the `swarm` table of a document. -/
def swarmField (config : Toml) (k : String) : Option Toml :=
  (tomlGet? config "swarm").bind (fun s => tomlGet? s k)

/-- A sample document with a non-default `auth_mode`. -/
def docAuthToken : Toml :=
  Toml.table [("server", Toml.table
    [("auth_mode", Toml.str "token"),
     ("listen", Toml.arr [Toml.str "/ip4/127.0.0.1/tcp/2528"])])]

example : set_ports docAuthToken 9000 2428 =
    Toml.table [("server", Toml.table
      [("auth_mode", Toml.str "embedded"),
       ("listen", Toml.arr [Toml.str "/ip4/127.0.0.1/tcp/9000"])])] := rfl

lemma lookupKvs_modify_self (kvs : List (String × Toml)) (k : String) (f : Toml → Toml) :
    lookupKvs (modifyKvs kvs k f) k = (lookupKvs kvs k).map f := by
  induction kvs with
  | nil => rfl
  | cons p rest ih =>
    obtain ⟨k1, v⟩ := p
    simp only [modifyKvs]
    by_cases h : k1 = k
    · rw [if_pos h]
      subst h
      simp [lookupKvs]
    · rw [if_neg h]
      simp [lookupKvs, h, ih]

lemma lookupKvs_modify_ne (kvs : List (String × Toml)) (k1 k2 : String)
    (f : Toml → Toml) (hne : k1 ≠ k2) :
    lookupKvs (modifyKvs kvs k1 f) k2 = lookupKvs kvs k2 := by
  induction kvs with
  | nil => rfl
  | cons p rest ih =>
    obtain ⟨ka, v⟩ := p
    simp only [modifyKvs]
    by_cases h : ka = k1
    · rw [if_pos h]
      subst h
      simp [lookupKvs, hne, ih]
    · rw [if_neg h]
      simp [lookupKvs, ih]

lemma lookupKvs_replace_ne (kvs : List (String × Toml)) (k1 k2 : String)
    (v : Toml) (hne : k1 ≠ k2) :
    lookupKvs (replaceKvs kvs k1 v) k2 = lookupKvs kvs k2 := by
  induction kvs with
  | nil => rfl
  | cons p rest ih =>
    obtain ⟨ka, w⟩ := p
    simp only [replaceKvs]
    by_cases h : ka = k1
    · rw [if_pos h]
      subst h
      simp [lookupKvs, hne, ih]
    · rw [if_neg h]
      simp [lookupKvs, ih]

lemma lookupKvs_append_single_ne (kvs : List (String × Toml)) (k1 k2 : String)
    (v : Toml) (hne : k1 ≠ k2) :
    lookupKvs (kvs ++ [(k1, v)]) k2 = lookupKvs kvs k2 := by
  induction kvs with
  | nil => simp [lookupKvs, hne]
  | cons p rest ih =>
    obtain ⟨ka, w⟩ := p
    by_cases h : ka = k2 <;> simp [lookupKvs, h, ih]

lemma lookupKvs_insert_ne (kvs : List (String × Toml)) (k1 k2 : String)
    (v : Toml) (hne : k1 ≠ k2) :
    lookupKvs (insertKvs kvs k1 v) k2 = lookupKvs kvs k2 := by
  unfold insertKvs
  split_ifs with h
  · exact lookupKvs_replace_ne kvs k1 k2 v hne
  · exact lookupKvs_append_single_ne kvs k1 k2 v hne

lemma lookupKvs_replace_self (kvs : List (String × Toml)) (k : String) (v : Toml)
    (hk : hasKey kvs k = true) :
    lookupKvs (replaceKvs kvs k v) k = some v := by
  induction kvs with
  | nil => exact absurd hk (by simp [hasKey])
  | cons p rest ih =>
    obtain ⟨ka, w⟩ := p
    simp only [replaceKvs]
    by_cases h : ka = k
    · rw [if_pos h]
      subst h
      simp [lookupKvs]
    · rw [if_neg h]
      have hk2 : hasKey rest k = true := by simpa [hasKey, h] using hk
      simp [lookupKvs, h, ih hk2]

lemma lookupKvs_append_single_self (kvs : List (String × Toml)) (k : String) (v : Toml) :
    hasKey kvs k = false → lookupKvs (kvs ++ [(k, v)]) k = some v := by
  induction kvs with
  | nil => intro _; simp [lookupKvs]
  | cons p rest ih =>
    intro hk
    obtain ⟨ka, w⟩ := p
    have h : ka ≠ k := by
      intro h
      simp [hasKey, h] at hk
    have hk2 : hasKey rest k = false := by simpa [hasKey, h] using hk
    simp [lookupKvs, h, ih hk2]

lemma lookupKvs_insert_self (kvs : List (String × Toml)) (k : String) (v : Toml) :
    lookupKvs (insertKvs kvs k v) k = some v := by
  unfold insertKvs
  split_ifs with h
  · exact lookupKvs_replace_self kvs k v h
  · exact lookupKvs_append_single_self kvs k v (by simpa using h)

lemma tomlGet?_modify_self (t : Toml) (k : String) (f : Toml → Toml) :
    tomlGet? (tomlModify t k f) k = (tomlGet? t k).map f := by
  cases t <;> simp [tomlModify, tomlGet?, lookupKvs_modify_self]

lemma tomlGet?_modify_ne (t : Toml) (k1 k2 : String) (f : Toml → Toml) (hne : k1 ≠ k2) :
    tomlGet? (tomlModify t k1 f) k2 = tomlGet? t k2 := by
  cases t <;> simp [tomlModify, tomlGet?, lookupKvs_modify_ne _ _ _ _ hne]

lemma tomlGet?_authModeSet_ne (sv : Toml) (k : String) (hk : k ≠ "auth_mode") :
    tomlGet? (authModeSet sv) k = tomlGet? sv k := by
  cases sv <;>
    simp [authModeSet, tomlGet?, lookupKvs_insert_ne _ _ _ _ (Ne.symm hk)]

lemma tomlGet?_updateServer_listen (p : Nat) (sv : Toml) :
    tomlGet? (updateServer p sv) "listen" =
      (tomlGet? sv "listen").map (updateListen (updateServerEntry p)) := by
  unfold updateServer
  rw [tomlGet?_modify_self, tomlGet?_authModeSet_ne sv "listen" (by decide)]

lemma tomlGet?_updateServer_ne (p : Nat) (sv : Toml) (k : String)
    (hk1 : k ≠ "listen") (hk2 : k ≠ "auth_mode") :
    tomlGet? (updateServer p sv) k = tomlGet? sv k := by
  unfold updateServer
  rw [tomlGet?_modify_ne _ _ _ _ (Ne.symm hk1), tomlGet?_authModeSet_ne sv k hk2]

lemma tomlGet?_updateServer_auth (p : Nat) (kvs : List (String × Toml)) :
    tomlGet? (updateServer p (Toml.table kvs)) "auth_mode" = some (Toml.str "embedded") := by
  unfold updateServer
  rw [tomlGet?_modify_ne _ _ _ _ (by decide)]
  simp [authModeSet, tomlGet?, lookupKvs_insert_self]

lemma tomlGet?_updateSwarm_ne (q : Nat) (sw : Toml) (k : String) (hk : k ≠ "listen") :
    tomlGet? (updateSwarm q sw) k = tomlGet? sw k := by
  unfold updateSwarm
  rw [tomlGet?_modify_ne _ _ _ _ (Ne.symm hk)]

lemma tomlGet?_set_ports_server (config : Toml) (p q : Nat) :
    tomlGet? (set_ports config p q) "server" =
      (tomlGet? config "server").map (updateServer p) := by
  unfold set_ports
  rw [tomlGet?_modify_ne _ _ _ _ (by decide), tomlGet?_modify_self]

lemma tomlGet?_set_ports_swarm (config : Toml) (p q : Nat) :
    tomlGet? (set_ports config p q) "swarm" =
      (tomlGet? config "swarm").map (updateSwarm q) := by
  unfold set_ports
  rw [tomlGet?_modify_self, tomlGet?_modify_ne _ _ _ _ (by decide)]

/-- C7 counterexample: the claim says every field other than the
rewritten listen entries keeps its value, but the patch unconditionally
overwrites `server.auth_mode` with `"embedded"` (main.rs:525-527): on a
document whose `auth_mode` is `"token"`, that field changes. -/
theorem set_ports_auth_mode_changed_c7_cex :
    serverField (set_ports docAuthToken 9000 2428) "auth_mode" = some (Toml.str "embedded")
    ∧ serverField docAuthToken "auth_mode" = some (Toml.str "token") := ⟨rfl, rfl⟩

/-- C7 amended: patching a document whose `server.listen` is
`["/ip4/127.0.0.1/tcp/2528"]` with server_port 9000 rewrites that entry
to `"/ip4/127.0.0.1/tcp/9000"`; `server.auth_mode` is unconditionally set
to `"embedded"` (whenever `server` is a table); every other document
field — top-level fields other than `server`/`swarm`, `server` fields
other than `listen` and `auth_mode`, `swarm` fields other than `listen` —
keeps its value across the value-level round trip. -/
theorem set_ports_rewrite_frame_c7_amended :
    (∀ (config : Toml) (q : Nat),
        serverField config "listen" = some (Toml.arr [Toml.str "/ip4/127.0.0.1/tcp/2528"]) →
          serverField (set_ports config 9000 q) "listen" =
            some (Toml.arr [Toml.str "/ip4/127.0.0.1/tcp/9000"]))
    ∧ (∀ (config : Toml) (p q : Nat) (k : String), k ≠ "server" → k ≠ "swarm" →
        tomlGet? (set_ports config p q) k = tomlGet? config k)
    ∧ (∀ (config : Toml) (p q : Nat) (k : String), k ≠ "listen" → k ≠ "auth_mode" →
        serverField (set_ports config p q) k = serverField config k)
    ∧ (∀ (config : Toml) (p q : Nat) (k : String), k ≠ "listen" →
        swarmField (set_ports config p q) k = swarmField config k)
    ∧ (∀ (config : Toml) (p q : Nat) (kvs : List (String × Toml)),
        tomlGet? config "server" = some (Toml.table kvs) →
          serverField (set_ports config p q) "auth_mode" = some (Toml.str "embedded")) := by
  refine ⟨?_, ?_, ?_, ?_, ?_⟩
  · intro config q h
    unfold serverField at h ⊢
    rw [tomlGet?_set_ports_server]
    cases hsv : tomlGet? config "server" with
    | none =>
      rw [hsv] at h
      exact absurd h (by simp)
    | some sv =>
      rw [hsv] at h
      simp only [Option.some_bind] at h
      simp only [Option.map_some', Option.some_bind]
      rw [tomlGet?_updateServer_listen, h]
      rfl
  · intro config p q k hk1 hk2
    unfold set_ports
    rw [tomlGet?_modify_ne _ _ _ _ (Ne.symm hk2), tomlGet?_modify_ne _ _ _ _ (Ne.symm hk1)]
  · intro config p q k hk1 hk2
    unfold serverField
    rw [tomlGet?_set_ports_server]
    cases hsv : tomlGet? config "server" with
    | none => rfl
    | some sv =>
      simp only [Option.map_some', Option.some_bind]
      exact tomlGet?_updateServer_ne p sv k hk1 hk2
  · intro config p q k hk
    unfold swarmField
    rw [tomlGet?_set_ports_swarm]
    cases hsw : tomlGet? config "swarm" with
    | none => rfl
    | some sw =>
      simp only [Option.map_some', Option.some_bind]
      exact tomlGet?_updateSwarm_ne q sw k hk
  · intro config p q kvs hsv
    unfold serverField
    rw [tomlGet?_set_ports_server, hsv]
    simp only [Option.map_some', Option.some_bind]
    exact tomlGet?_updateServer_auth p kvs

theorem set_ports_rewrite_frame_c7_witness :
    serverField (set_ports docAuthToken 9000 2428) "listen" =
      some (Toml.arr [Toml.str "/ip4/127.0.0.1/tcp/9000"]) :=
  set_ports_rewrite_frame_c7_amended.1 docAuthToken 2428 rfl

/-! ### Node discovery (`list_merod_nodes`, main.rs:959-1023)

A directory entry under the storage root is embedded as its name,
whether it is a directory, and the observed state of its `config.toml`
(the code collapses "exists", "readable" and "parses as TOML" into one
include/skip decision).  The early returns for a missing storage root
and the `read_dir`/entry/file-type I/O failures (which produce `Err`)
are the `Except` shape; names that are not valid UTF-8 are skipped by
`to_str` and are not representable here.  Rust's `Vec<String>::sort()`
is byte-lexicographic, which on UTF-8 agrees with the character
(scalar-value) order used here. -/

/-- What the code observes about `<node>/config.toml`
(main.rs:1000-1013). -/
inductive ConfigStatus where
  | missing
  | unreadable
  | invalid
  | valid
deriving DecidableEq, Repr

/-- One entry of `read_dir(storage_root)`. -/
structure StorageEntry where
  name : String
  isDir : Bool
  config : ConfigStatus
deriving DecidableEq, Repr

/-- The collection loop of `list_merod_nodes` (main.rs:987-1017):
directories only, skip dot-prefixed names, include only entries whose
config.toml exists, reads, and parses. -/
def collectNodes : List StorageEntry → List String
  | [] => []
  | e :: rest =>
    if e.isDir then
      if !(e.name.startsWith ".") then
        if e.config == ConfigStatus.valid then e.name :: collectNodes rest
        else collectNodes rest
      else collectNodes rest
    else collectNodes rest

/-- Insertion of a string into a sorted list (ascending `≤`). -/
def insertStr (s : String) : List String → List String
  | [] => [s]
  | t :: ts => if s ≤ t then s :: t :: ts else t :: insertStr s ts

/-- `nodes.sort()` (main.rs:1020), as insertion sort. -/
def sortStrings : List String → List String
  | [] => []
  | t :: ts => insertStr t (sortStrings ts)

/-- Adjacent-pairs sortedness check. -/
def sortedB : List String → Bool
  | [] => true
  | [_] => true
  | a :: b :: t => decide (a ≤ b) && sortedB (b :: t)

/-- `list_merod_nodes` (main.rs:959-1023): `none` stands for a missing
storage root (main.rs:979-981, `Ok(vec![])`). -/
def list_merod_nodes (root : Option (List StorageEntry)) : Except String (List String) :=
  match root with
  | none => Except.ok []
  | some entries => Except.ok (sortStrings (collectNodes entries))

/-- The include condition of the loop as a predicate. -/
def goodNode (e : StorageEntry) : Bool :=
  e.isDir && !(e.name.startsWith ".") && (e.config == ConfigStatus.valid)

lemma collectNodes_eq_filter (entries : List StorageEntry) :
    collectNodes entries = (entries.filter goodNode).map StorageEntry.name := by
  induction entries with
  | nil => rfl
  | cons e rest ih =>
    simp only [collectNodes, List.filter_cons, goodNode]
    by_cases hd : e.isDir
    · by_cases hn : e.name.startsWith "."
      · simp [hd, hn, ih]
      · by_cases hc : e.config = ConfigStatus.valid
        · simp [hd, hn, hc, ih]
        · simp [hd, hn, hc, ih]
    · simp [hd, ih]

lemma mem_insertStr (a s : String) (l : List String) :
    a ∈ insertStr s l ↔ a = s ∨ a ∈ l := by
  induction l with
  | nil => simp [insertStr]
  | cons t ts ih =>
    simp only [insertStr]
    split_ifs with h
    · simp [List.mem_cons]
    · simp only [List.mem_cons, ih]
      tauto

lemma mem_sortStrings (a : String) (l : List String) :
    a ∈ sortStrings l ↔ a ∈ l := by
  induction l with
  | nil => simp [sortStrings]
  | cons t ts ih =>
    simp only [sortStrings, mem_insertStr, ih, List.mem_cons]

lemma sortedB_insertStr (s : String) (l : List String) (hl : sortedB l = true) :
    sortedB (insertStr s l) = true := by
  induction l with
  | nil => rfl
  | cons t ts ih =>
    simp only [insertStr]
    split_ifs with h
    · simp only [sortedB, Bool.and_eq_true, decide_eq_true_eq]
      exact ⟨h, hl⟩
    · have hts : sortedB ts = true := by
        cases ts with
        | nil => rfl
        | cons b tb => exact (Bool.and_eq_true .. ▸ hl).2
      have hins := ih hts
      have hts' : t ≤ s := le_of_not_le h
      cases hsp : insertStr s ts with
      | nil => rfl
      | cons b tb =>
        have hhead : t ≤ b := by
          cases ts with
          | nil =>
            simp only [insertStr] at hsp
            cases hsp
            exact hts'
          | cons c tc =>
            simp only [insertStr] at hsp
            split_ifs at hsp with hsc
            · cases hsp
              exact hts'
            · cases hsp
              exact (Bool.and_eq_true .. ▸ hl).1 |> fun hx => by
                exact of_decide_eq_true hx
        rw [hsp] at hins
        simp only [sortedB, Bool.and_eq_true, decide_eq_true_eq]
        exact ⟨hhead, hins⟩

lemma sortedB_sortStrings (l : List String) : sortedB (sortStrings l) = true := by
  induction l with
  | nil => rfl
  | cons t ts ih => exact sortedB_insertStr t (sortStrings ts) ih

/-- C8: for any listing of the storage root, `list_merod_nodes` succeeds
(config.toml problems are silently excluded, never an error) and returns
exactly the names of the non-dot-prefixed subdirectories whose
config.toml parses, sorted; membership characterizes the result and the
result is sorted. -/
theorem list_merod_nodes_c8 :
    (∀ entries : List StorageEntry,
        list_merod_nodes (some entries) =
          Except.ok (sortStrings ((entries.filter goodNode).map StorageEntry.name)))
    ∧ (∀ entries : List StorageEntry,
        sortedB (sortStrings ((entries.filter goodNode).map StorageEntry.name)) = true)
    ∧ (∀ (entries : List StorageEntry) (n : String),
        n ∈ sortStrings ((entries.filter goodNode).map StorageEntry.name) ↔
          ∃ e ∈ entries, e.isDir = true ∧ e.name.startsWith "." = false ∧
            e.config = ConfigStatus.valid ∧ e.name = n) := by
  refine ⟨?_, ?_, ?_⟩
  · intro entries
    simp only [list_merod_nodes, collectNodes_eq_filter]
  · intro entries
    exact sortedB_sortStrings _
  · intro entries n
    rw [mem_sortStrings]
    simp only [List.mem_map, List.mem_filter, goodNode, Bool.and_eq_true, beq_iff_eq,
      Bool.not_eq_true']
    aesop

end CalimeroDesktop
